import Mathlib

/-!
Shallow embedding of the analytics-dashboard backend (Python/FastAPI) in
Lean 4, for checking the natural-language specification against the code.

Conventions of the embedding:
* timestamps are seconds since the epoch, as `Nat` (analytics, worker) or
  `Int` (date-range arithmetic, which subtracts); the UTC hour floor of a
  timestamp zeroes minutes/seconds, i.e. rounds down to a multiple of 3600;
* database tables are lists of rows; a SQL `WHERE` is a `List.filter`, a
  `COUNT(*)` a `List.length`, a `COUNT(DISTINCT col)` (which ignores NULLs)
  a `List.dedup` length of the non-null column values, a `SUM` a `List.sum`;
* the Redis key/value store is an association list; `GET` is `List.find?`,
  `DEL` a `List.filter`, `SETEX` a cons;
* fallible endpoints return `Except String`, mirroring raised HTTP errors;
* Python dicts built by `d[k] = d.get(k, 0) + v` loops are insertion-ordered
  association lists (`insert_add`), and Python's `max(d, key=d.get)` is the
  first key attaining the maximal value (`max_entry`);
* opaque external values (JSON payload documents, JWT strings) are `String`s
  or type parameters; cryptographic functions (SHA-256, JWT decode) are
  function parameters, since they live outside the repository.
-/

/-- From `app/services/analytics_service.py::_current_hour_start` and the
spec's `hour_floor`: the UTC timestamp with minutes/seconds zeroed. -/
def hour_floor (t : Nat) : Nat :=
  3600 * (t / 3600)

/-- Raw event row, from `app/models/event.py::Event`. The DB-generated `id`
and `created_at` columns are omitted (no claim mentions them); `properties`
is an opaque serialized document. -/
structure Event where
  project_id : Nat
  event_name : String
  distinct_id : Option String
  properties : Option String
  session_id : Option String
  page_url : Option String
  referrer : Option String
  user_agent : Option String
  ip_hash : Option String
  timestamp : Nat
deriving DecidableEq

/-- Hourly rollup row, from `app/models/event.py::EventRollupHourly`
(DB-generated `id` omitted). The table carries a unique constraint on
`(project_id, event_name, hour)`. -/
structure EventRollupHourly where
  project_id : Nat
  event_name : String
  hour : Nat
  count : Nat
  unique_sessions : Nat
  unique_users : Nat
deriving DecidableEq

/-- From `app/schemas/analytics.py::OverviewMetrics`. -/
structure OverviewMetrics where
  total_events : Nat
  unique_sessions : Nat
  unique_users : Nat
  top_event : Option String
  period_start : Nat
  period_end : Nat
deriving DecidableEq

/-- SQL `COUNT(DISTINCT col)` over the non-null values of a column. -/
def count_distinct (l : List String) : Nat :=
  l.dedup.length

/-- One step of the Python dict update `d[k] = d.get(k, 0) + v`: bump the
first entry with key `k`, else append `(k, v)` (dicts are insertion-ordered
and keyed uniquely). -/
def insert_add : List (String × Nat) → String → Nat → List (String × Nat)
  | [], k, v => [(k, v)]
  | q :: rest, k, v =>
    if q.1 = k then (q.1, q.2 + v) :: rest else q :: insert_add rest k v

/-- A Python loop folding `(name, cnt)` pairs into a count dict. -/
def fold_counts (d : List (String × Nat)) (pairs : List (String × Nat)) :
    List (String × Nat) :=
  pairs.foldl (fun acc q => insert_add acc q.1 q.2) d

/-- `d.get(k, 0)` on an insertion-ordered count dict. -/
def dict_get (d : List (String × Nat)) (k : String) : Nat :=
  match d.find? (fun q => q.1 = k) with
  | some q => q.2
  | none => 0

/-- Python's `max(d, key=d.get)` as an entry: the first entry attaining the
maximal value (later entries replace the best only when strictly greater). -/
def max_entry : List (String × Nat) → Option (String × Nat)
  | [] => none
  | q :: rest =>
    match max_entry rest with
    | none => some q
    | some r => if r.2 > q.2 then some r else some q

/-- Total of one key's values in a pair list (used to state what a count
dict holds). -/
def key_sum (pairs : List (String × Nat)) (k : String) : Nat :=
  ((pairs.filter (fun q => q.1 = k)).map (fun q => q.2)).sum

/-- From `app/services/analytics_service.py::AnalyticsService.get_overview`.
`now` stands for `datetime.now(timezone.utc)`; `rollups` and `events` are
the two tables. The rollup portion runs only when `start < hour_start` and
reads rows with `start <= hour < min(end, hour_start)`; the raw portion runs
only when `end >= hour_start` and reads events with
`max(start, hour_start) <= timestamp <= end`; the SQL per-name `GROUP BY`
results are folded into one insertion-ordered count dict, rollup names
first, and `top_event` is Python's `max` over it. -/
def get_overview (now : Nat) (rollups : List EventRollupHourly)
    (events : List Event) (project_id start end_ : Nat) : OverviewMetrics :=
  let hour_start := hour_floor now
  let rollup_rows :=
    if start < hour_start then
      rollups.filter (fun r =>
        decide (r.project_id = project_id ∧ start ≤ r.hour ∧
          r.hour < min end_ hour_start))
    else []
  let raw_events :=
    if hour_start ≤ end_ then
      events.filter (fun e =>
        decide (e.project_id = project_id ∧ max start hour_start ≤ e.timestamp ∧
          e.timestamp ≤ end_))
    else []
  let rollup_total := (rollup_rows.map (fun r => r.count)).sum
  let rollup_sessions := (rollup_rows.map (fun r => r.unique_sessions)).sum
  let rollup_users := (rollup_rows.map (fun r => r.unique_users)).sum
  let raw_total := raw_events.length
  let raw_sessions := count_distinct (raw_events.filterMap (fun e => e.session_id))
  let raw_users := count_distinct (raw_events.filterMap (fun e => e.distinct_id))
  let combined :=
    fold_counts (fold_counts [] (rollup_rows.map (fun r => (r.event_name, r.count))))
      (raw_events.map (fun e => (e.event_name, 1)))
  { total_events := rollup_total + raw_total
    unique_sessions := rollup_sessions + raw_sessions
    unique_users := rollup_users + raw_users
    top_event := (max_entry combined).map (fun q => q.1)
    period_start := start
    period_end := end_ }

/-! ## Worker rollup pass, from `app/worker.py` -/

/-- SQL upsert keyed by the unique constraint `(project_id, event_name,
hour)`: the row with that key is replaced (rows of a table are a set; the
list position is immaterial), else the row is inserted. Models the
update-else-insert of `_compute_rollups`. -/
def rollup_upsert (rs : List EventRollupHourly) (row : EventRollupHourly) :
    List EventRollupHourly :=
  rs.filter (fun r =>
    !decide (r.project_id = row.project_id ∧ r.event_name = row.event_name ∧
      r.hour = row.hour)) ++ [row]

/-- The aggregate row `_compute_rollups` builds for one `(project_id,
event_name)` group of the scanned events: `count`, `COUNT(DISTINCT
session_id)` and `COUNT(DISTINCT distinct_id)` (SQL distinct counts ignore
NULLs), keyed at `hour_start`. -/
def rollup_row_for (hour_start : Nat) (recent : List Event)
    (k : Nat × String) : EventRollupHourly :=
  let grp := recent.filter (fun e =>
    decide (e.project_id = k.1 ∧ e.event_name = k.2))
  { project_id := k.1
    event_name := k.2
    hour := hour_start
    count := grp.length
    unique_sessions := count_distinct (grp.filterMap (fun e => e.session_id))
    unique_users := count_distinct (grp.filterMap (fun e => e.distinct_id)) }

/-- From `app/worker.py::_compute_rollups`: scan raw events with
`timestamp >= hour_start` where `hour_start = hour_floor(now)`, group by
`(project_id, event_name)`, and upsert one row per group keyed at
`hour_start`. -/
def compute_rollups (now : Nat) (events : List Event)
    (rollups : List EventRollupHourly) : List EventRollupHourly :=
  let hour_start := hour_floor now
  let recent := events.filter (fun e => decide (hour_start ≤ e.timestamp))
  let keys := (recent.map (fun e => (e.project_id, e.event_name))).dedup
  keys.foldl (fun rs k => rollup_upsert rs (rollup_row_for hour_start recent k))
    rollups

/-- One observable action of the worker process: the drain loop persisting a
raw event (`_persist_batch`), or a rollup pass (`_compute_rollups`) running
at a wall-clock time. -/
inductive WorkerAction where
  | persist (e : Event)
  | rollup
deriving DecidableEq

/-- Effect of a timed worker action on the two tables. -/
def worker_step (st : List Event × List EventRollupHourly)
    (a : Nat × WorkerAction) : List Event × List EventRollupHourly :=
  match a.2 with
  | .persist e => (st.1 ++ [e], st.2)
  | .rollup => (st.1, compute_rollups a.1 st.1 st.2)

/-- The tables after a timed sequence of persists and rollup passes, from
empty stores (`run_worker`'s loop, flattened to its table effects). -/
def run_worker_history (h : List (Nat × WorkerAction)) :
    List Event × List EventRollupHourly :=
  h.foldl worker_step ([], [])

/-- Sum over `event_name` of rollup counts for one `(project, hour)`. -/
def rollup_hour_sum (rollups : List EventRollupHourly) (p hourKey : Nat) : Nat :=
  ((rollups.filter (fun r => decide (r.project_id = p ∧ r.hour = hourKey))).map
    (fun r => r.count)).sum

/-- Number of raw events of a project whose timestamp hour-floors to `hourKey`. -/
def raw_hour_count (events : List Event) (p hourKey : Nat) : Nat :=
  (events.filter (fun e =>
    decide (e.project_id = p ∧ hour_floor e.timestamp = hourKey))).length

/-! ## Ingest path, from `app/api/v1/events.py` and `app/core/stream.py` -/

/-- Outcome of executing a Redis pipeline, modelled from Redis semantics
(the broker is external to the repository): either every queued command is
processed, or a transport failure occurs after the server has already
processed `k` of them. With `transaction := true` the commands are wrapped
in MULTI/EXEC and a failure applies none of them; with `transaction :=
false` a pipeline is mere client-side batching, so the `k` already-processed
commands stay applied. -/
inductive PipeOutcome where
  | ok
  | failAfter (k : Nat)
deriving DecidableEq

/-- From `app/core/stream.py::push_event_batch_to_stream`: XADD every
serialized record through one pipeline; return the number of message ids on
success, `none` on a raised transport error. The source calls
`r.pipeline(transaction=False)`. Returns the stream contents alongside. -/
def push_event_batch_to_stream {α : Type} (transaction : Bool)
    (outcome : PipeOutcome) (stream : List α) (events_data : List α) :
    Option Nat × List α :=
  if events_data.isEmpty then (some 0, stream)
  else
    match outcome with
    | .ok => (some events_data.length, stream ++ events_data)
    | .failAfter k =>
        (none, if transaction then stream else stream ++ events_data.take k)

/-- From `app/api/v1/events.py::ingest_events` (post-validation): try the
pipelined append with `transaction := false` as the source does; on `none`
fall back to `EventService.ingest_batch`, one DB transaction writing the
whole batch. Returns `(accepted, stream, db)`. -/
def ingest_events {α : Type} (outcome : PipeOutcome) (stream db : List α)
    (events_data : List α) : Nat × List α × List α :=
  let pushed := push_event_batch_to_stream false outcome stream events_data
  match pushed.1 with
  | some n => (n, pushed.2, db)
  | none => (events_data.length, pushed.2, db ++ events_data)

/-! ## Ingest schema, from `app/schemas/event.py` -/

/-- From `app/schemas/event.py::EventIn`. -/
structure EventIn where
  event : String
  properties : Option String
  distinct_id : Option String
  session_id : Option String
  page_url : Option String
  referrer : Option String
  timestamp : Option Nat
deriving DecidableEq

/-- Field constraints of `EventIn`: `event` has `min_length=1,
max_length=255`; `distinct_id` at most 255; `session_id` at most 64. -/
def event_in_valid (e : EventIn) : Bool :=
  decide (1 ≤ e.event.length) && decide (e.event.length ≤ 255) &&
    (match e.distinct_id with
     | some s => decide (s.length ≤ 255)
     | none => true) &&
    (match e.session_id with
     | some s => decide (s.length ≤ 64)
     | none => true)

/-- From `app/schemas/event.py::EventIngestRequest`: `events` has
`min_length=1, max_length=100`, each element a valid `EventIn`. -/
def event_ingest_request_valid (events : List EventIn) : Bool :=
  decide (1 ≤ events.length) && decide (events.length ≤ 100) &&
    events.all event_in_valid

/-! ## Date-range parsing, from `app/api/v1/analytics.py` -/

/-- The `period` query parameter (`^(24h|7d|30d)$`). -/
inductive Period where
  | h24
  | d7
  | d30
deriving DecidableEq

/-- The timedelta each period stands for, in seconds. -/
def period_delta : Period → Int
  | .h24 => 24 * 3600
  | .d7 => 7 * 24 * 3600
  | .d30 => 30 * 24 * 3600

/-- From `app/api/v1/analytics.py::_parse_date_range`: a missing `end`
defaults to `now`; a missing `start` defaults to `now` minus the period
(measured from `now`, not from the supplied `end`). -/
def _parse_date_range (start? end? : Option Int) (period : Period)
    (now : Int) : Int × Int :=
  let e := end?.getD now
  let s := start?.getD (now - period_delta period)
  (s, e)

/-! ## Credential store, from `app/core/security.py` -/

/-- Decoded JWT payload (`sub`, `type`, `jti`; `exp` is enforced by the
external `jwt.decode`, whose failure is `decode = none`). -/
structure TokenPayload where
  sub : Nat
  type : String
  jti : String
deriving DecidableEq

/-- The Redis keys the token lifecycle uses: `refresh_token:<jti> ->
user_id` with per-user index `user_tokens:<user>:<jti>`, and
`access_token:<jti> -> user_id` with index `user_access_tokens:<user>:<jti>`
(presence-as-validity; TTL expiry is key deletion). -/
structure TokenStore where
  refresh_tokens : List (String × Nat)
  user_tokens : List (Nat × String)
  access_tokens : List (String × Nat)
  user_access_tokens : List (Nat × String)
deriving DecidableEq

/-- From `security.py::store_access_token`: SETEX both the token key and the
user index key. -/
def store_access_token (user_id : Nat) (jti : String) (st : TokenStore) :
    TokenStore :=
  { st with
    access_tokens := (jti, user_id) :: st.access_tokens
    user_access_tokens := (user_id, jti) :: st.user_access_tokens }

/-- From `security.py::store_refresh_token`. -/
def store_refresh_token (user_id : Nat) (jti : String) (st : TokenStore) :
    TokenStore :=
  { st with
    refresh_tokens := (jti, user_id) :: st.refresh_tokens
    user_tokens := (user_id, jti) :: st.user_tokens }

/-- From `security.py::is_access_token_revoked`: revoked iff the key is
absent. -/
def is_access_token_revoked (jti : String) (st : TokenStore) : Bool :=
  !(st.access_tokens.any (fun q => q.1 == jti))

/-- From `security.py::is_token_revoked` (refresh tokens). -/
def is_token_revoked (jti : String) (st : TokenStore) : Bool :=
  !(st.refresh_tokens.any (fun q => q.1 == jti))

/-- From `security.py::revoke_token`: GET the user id at
`refresh_token:<jti>`, DEL that key, and when a user id was found DEL the
index key `user_tokens:<user>:<jti>`. -/
def revoke_token (jti : String) (st : TokenStore) : TokenStore :=
  let found := st.refresh_tokens.find? (fun q => q.1 == jti)
  let st1 := { st with
    refresh_tokens := st.refresh_tokens.filter (fun q => !(q.1 == jti)) }
  match found with
  | some q =>
      { st1 with
        user_tokens := st1.user_tokens.filter (fun r =>
          !(r.1 == q.2 && r.2 == jti)) }
  | none => st1

/-- From `security.py::revoke_all_user_access_tokens`: SCAN the pattern
`user_access_tokens:<user>:*`, collect each matched index key and the
`access_token:<jti>` key it names, and DEL them all. -/
def revoke_all_user_access_tokens (user_id : Nat) (st : TokenStore) :
    TokenStore :=
  let jtis := (st.user_access_tokens.filter (fun q => q.1 == user_id)).map
    (fun q => q.2)
  { st with
    user_access_tokens := st.user_access_tokens.filter (fun q =>
      !(q.1 == user_id))
    access_tokens := st.access_tokens.filter (fun q => !(jtis.contains q.1)) }

/-- User row (`app/models/user.py` is not under src/; the fields the auth
path reads are `id` and `is_active`, per `UserService.get` call sites). -/
structure User where
  id : Nat
  is_active : Bool
deriving DecidableEq

/-- Response body of login/refresh, from `app/schemas/auth.py::Token`. -/
structure Token where
  access_token : String
  refresh_token : String
deriving DecidableEq

/-- From `app/api/v1/auth.py::refresh_token_endpoint`. `decode` is the
external `jwt.decode` (returns `none` for an invalid/expired token); the
fresh `(token string, jti)` pairs that `create_access_token` /
`create_refresh_token` would mint are passed in, the randomness being
external. Cookie-vs-body transport is collapsed into one optional raw
token. The final `_perform_login` stores both new tokens. -/
def refresh_token_endpoint (decode : String → Option TokenPayload)
    (users : List User) (raw_token : Option String)
    (newAccess newRefresh : String × String) (st : TokenStore) :
    Except String (Token × TokenStore) :=
  match raw_token with
  | none => .error "No refresh token provided"
  | some tok =>
    match decode tok with
    | none => .error "Invalid refresh token"
    | some payload =>
      if payload.type ≠ "refresh" then .error "Invalid refresh token"
      else if payload.jti = "" then .error "Invalid token payload"
      else if is_token_revoked payload.jti st then .error "Token has been revoked"
      else
        match users.find? (fun u => u.id == payload.sub) with
        | none => .error "User not found or inactive"
        | some user =>
          if !user.is_active then .error "User not found or inactive"
          else
            let st1 := revoke_token payload.jti st
            let st2 := revoke_all_user_access_tokens user.id st1
            let st3 := store_access_token user.id newAccess.2 st2
            let st4 := store_refresh_token user.id newRefresh.2 st3
            .ok (⟨newAccess.1, newRefresh.1⟩, st4)

/-- From `app/api/deps.py::get_current_user`: decode, check type `access`,
check the jti key still exists, load the user, check active. -/
def get_current_user (decode : String → Option TokenPayload)
    (users : List User) (st : TokenStore) (token : String) :
    Except String User :=
  match decode token with
  | none => .error "Invalid token"
  | some payload =>
    if payload.type ≠ "access" then .error "Invalid token type"
    else if payload.jti = "" then .error "Invalid token payload"
    else if is_access_token_revoked payload.jti st then
      .error "Token has been revoked"
    else
      match users.find? (fun u => u.id == payload.sub) with
      | none => .error "User not found"
      | some user =>
        if !user.is_active then .error "User is inactive" else .ok user

/-! ## WebSocket tickets and handshake, from `app/core/security.py` and
`app/api/v1/ws.py` -/

/-- From `security.py::create_ws_ticket`: SETEX `ws_ticket:<ticket> ->
user_id` (30s TTL); the random ticket is passed in. The key/value store for
tickets is an association list keyed by the ticket string. -/
def create_ws_ticket (user_id : Nat) (ticket : String)
    (kv : List (String × Nat)) : String × List (String × Nat) :=
  (ticket, (ticket, user_id) :: kv)

/-- From `security.py::validate_ws_ticket`: GET the key; on absence yield
`none`; otherwise DEL the key (single-use) and yield the user id. -/
def validate_ws_ticket (ticket : String) (kv : List (String × Nat)) :
    Option Nat × List (String × Nat) :=
  match kv.find? (fun q => q.1 == ticket) with
  | none => (none, kv)
  | some q => (some q.2, kv.filter (fun r => !(r.1 == ticket)))

/-- Project row. `app/models/project.py` as shipped still shows the
pre-migration shape (a sole plaintext `api_key`); the columns the service
and the migration `a1b2c3d4e5f6` actually use are `api_key` (legacy,
nullable), `api_key_hash` (unique) and `api_key_prefix`. -/
structure Project where
  id : Nat
  user_id : Nat
  name : String
  domain : Option String
  api_key : Option String
  api_key_hash : String
  api_key_prefix : String
deriving DecidableEq

/-- Close codes and acceptance of the websocket handshake. -/
inductive WsOutcome where
  | closed (code : Nat) (reason : String)
  | accepted (user_id : Nat)
deriving DecidableEq

/-- From `app/api/v1/ws.py::_authenticate_ws`: decode the query token as a
JWT, require type `access`, a non-empty jti, an unrevoked jti, and an
active user. -/
def _authenticate_ws (decode : String → Option TokenPayload)
    (users : List User) (st : TokenStore) (token : String) : Option Nat :=
  match decode token with
  | none => none
  | some payload =>
    if payload.type ≠ "access" then none
    else if payload.jti = "" then none
    else if is_access_token_revoked payload.jti st then none
    else
      match users.find? (fun u => u.id == payload.sub) with
      | none => none
      | some user => if !user.is_active then none else some user.id

/-- From `app/api/v1/ws.py::websocket_events`: the handshake reads the
`token` query parameter, authenticates it as a JWT access token via
`_authenticate_ws` (closing 4001 when missing or invalid), then checks
project ownership (closing 4003 on failure). It never reads the ticket
store. -/
def websocket_events (decode : String → Option TokenPayload)
    (users : List User) (projects : List Project) (st : TokenStore)
    (token : Option String) (project_id : Nat) : WsOutcome :=
  match token with
  | none => .closed 4001 "Missing token"
  | some tok =>
    match _authenticate_ws decode users st tok with
    | none => .closed 4001 "Invalid token"
    | some user_id =>
      match projects.find? (fun q => q.id == project_id) with
      | none => .closed 4003 "Project not found"
      | some proj =>
        if proj.user_id ≠ user_id then .closed 4003 "Project not found"
        else .accepted user_id

/-! ## Project service, from `app/services/project_service.py`

`Project.hash_api_key` itself is not among the shipped sources. Modelled
from the spec: `key_hash` is a cryptographic digest of the plaintext key
(SHA-256 per the data migration `a1b2c3d4e5f6`); the digest is the function
parameter `hashKey`. -/

/-- From `project_service.py::ProjectService.rotate_api_key`: clear the
legacy plaintext column, store the digest and the first 10 characters of
the fresh key. -/
def rotate_api_key (hashKey : String → String) (pr : Project)
    (plaintext_key : String) : Project :=
  { pr with
    api_key := none
    api_key_hash := hashKey plaintext_key
    api_key_prefix := plaintext_key.take 10 }

/-- `rotate_api_key` applied to the stored row with the given id (the
service flushes the mutated row back to the table). -/
def rotate_in_db (hashKey : String → String) (db : List Project)
    (project_id : Nat) (plaintext_key : String) : List Project :=
  db.map (fun pr =>
    if pr.id = project_id then rotate_api_key hashKey pr plaintext_key else pr)

/-- From `project_service.py::ProjectService.get_by_api_key`: hash the
presented key and look it up by `api_key_hash` (unique index, so at most
one row matches). -/
def get_by_api_key (hashKey : String → String) (db : List Project)
    (api_key : String) : Option Project :=
  db.find? (fun pr => pr.api_key_hash == hashKey api_key)

/-- From `app/api/deps.py::get_project_by_api_key`: 401 Unauthorized when
the lookup finds nothing. -/
def get_project_by_api_key (hashKey : String → String) (db : List Project)
    (x_api_key : String) : Except String Project :=
  match get_by_api_key hashKey db x_api_key with
  | none => .error "Invalid API key"
  | some pr => .ok pr

/-! ## The hybrid windows as the spec writes them -/

/-- The spec's rollup sub-window: rows of the project with
`start <= hour < min(end, H)`. -/
def rollup_window (rollups : List EventRollupHourly) (p start end_ H : Nat) :
    List EventRollupHourly :=
  rollups.filter (fun r =>
    decide (r.project_id = p ∧ start ≤ r.hour ∧ r.hour < min end_ H))

/-- The spec's raw sub-window: events of the project with
`max(start, H) <= timestamp <= end`. -/
def raw_window (events : List Event) (p start end_ H : Nat) : List Event :=
  events.filter (fun e =>
    decide (e.project_id = p ∧ max start H ≤ e.timestamp ∧ e.timestamp ≤ end_))

/-- Per-name count summed across the two sides, as the spec merges them. -/
def window_count (R : List EventRollupHourly) (E : List Event) (n : String) :
    Nat :=
  ((R.filter (fun r => decide (r.event_name = n))).map (fun r => r.count)).sum +
    (E.filter (fun e => decide (e.event_name = n))).length

/-- The scanned events of a rollup pass at time `now`. -/
def recent_events (now : Nat) (events : List Event) : List Event :=
  events.filter (fun e => decide (hour_floor now ≤ e.timestamp))

/-- The `(project_id, event_name)` groups of a rollup pass at time `now`. -/
def rollup_keys (now : Nat) (events : List Event) : List (Nat × String) :=
  ((recent_events now events).map (fun e => (e.project_id, e.event_name))).dedup

/-! ## Lemmas on count dicts and `max_entry` -/

theorem dict_get_nil (k : String) : dict_get [] k = 0 := rfl

theorem dict_get_cons (q : String × Nat) (d : List (String × Nat)) (k : String) :
    dict_get (q :: d) k = if q.1 = k then q.2 else dict_get d k := by
  by_cases h : q.1 = k <;> simp [dict_get, List.find?, h]


theorem insert_add_get (d : List (String × Nat)) (k k' : String) (v : Nat) :
    dict_get (insert_add d k v) k' = dict_get d k' + if k' = k then v else 0 := by
  induction d with
  | nil =>
    show dict_get [(k, v)] k' = dict_get [] k' + if k' = k then v else 0
    rw [dict_get_cons, dict_get_nil]
    by_cases h : k = k'
    · subst h; simp
    · rw [if_neg h, if_neg (fun hh => h hh.symm)]
  | cons q rest ih =>
    show dict_get (if q.1 = k then (q.1, q.2 + v) :: rest else q :: insert_add rest k v) k'
        = dict_get (q :: rest) k' + if k' = k then v else 0
    by_cases hq : q.1 = k
    · rw [if_pos hq, dict_get_cons, dict_get_cons]
      by_cases hk : q.1 = k'
      · rw [if_pos hk, if_pos hk, if_pos (hk.symm.trans hq)]
      · rw [if_neg hk, if_neg hk, if_neg (fun h => hk (hq.trans h.symm))]
        omega
    · rw [if_neg hq, dict_get_cons, dict_get_cons, ih]
      by_cases hk : q.1 = k'
      · rw [if_pos hk, if_pos hk, if_neg (fun h => hq (hk.trans h))]
        omega
      · rw [if_neg hk, if_neg hk]

theorem key_sum_nil (k : String) : key_sum [] k = 0 := rfl

theorem key_sum_cons (q : String × Nat) (pairs : List (String × Nat)) (k : String) :
    key_sum (q :: pairs) k = (if q.1 = k then q.2 else 0) + key_sum pairs k := by
  by_cases h : q.1 = k <;> simp [key_sum, h]

theorem fold_counts_get (pairs : List (String × Nat)) (d : List (String × Nat))
    (k : String) :
    dict_get (fold_counts d pairs) k = dict_get d k + key_sum pairs k := by
  induction pairs generalizing d with
  | nil => simp [fold_counts, key_sum_nil]
  | cons q rest ih =>
    show dict_get (fold_counts (insert_add d q.1 q.2) rest) k = _
    rw [ih, insert_add_get, key_sum_cons]
    by_cases h : q.1 = k
    · rw [if_pos h.symm, if_pos h]; omega
    · rw [if_neg (fun hh => h hh.symm), if_neg h]; omega

theorem max_entry_eq_none (d : List (String × Nat)) :
    max_entry d = none ↔ d = [] := by
  cases d with
  | nil => simp [max_entry]
  | cons q rest =>
    simp only [max_entry]
    cases h : max_entry rest with
    | none => simp
    | some r => by_cases hr : r.2 > q.2 <;> simp [hr]

theorem max_entry_mem {d : List (String × Nat)} {q : String × Nat}
    (h : max_entry d = some q) : q ∈ d := by
  induction d generalizing q with
  | nil => simp [max_entry] at h
  | cons r rest ih =>
    cases hrest : max_entry rest with
    | none =>
      simp only [max_entry, hrest] at h
      simp at h
      simp [h]
    | some t =>
      simp only [max_entry, hrest] at h
      by_cases ht : t.2 > r.2
      · rw [if_pos ht] at h
        injection h with h
        subst h
        exact List.mem_cons_of_mem _ (ih hrest)
      · rw [if_neg ht] at h
        injection h with h
        subst h
        exact List.mem_cons_self _ _

theorem max_entry_le {d : List (String × Nat)} {q : String × Nat}
    (h : max_entry d = some q) : ∀ r ∈ d, r.2 ≤ q.2 := by
  induction d generalizing q with
  | nil => simp [max_entry] at h
  | cons r rest ih =>
    intro s hs
    rcases List.mem_cons.mp hs with h1 | h1
    · subst h1
      cases hrest : max_entry rest with
      | none =>
        simp only [max_entry, hrest] at h
        simp at h
        rw [← h]
      | some t =>
        simp only [max_entry, hrest] at h
        by_cases ht : t.2 > s.2
        · rw [if_pos ht] at h; injection h with h; subst h; omega
        · rw [if_neg ht] at h; injection h with h; subst h; omega
    · cases hrest : max_entry rest with
      | none => rw [(max_entry_eq_none rest).mp hrest] at h1; simp at h1
      | some t =>
        simp only [max_entry, hrest] at h
        have htle := ih hrest s h1
        by_cases ht : t.2 > r.2
        · rw [if_pos ht] at h; injection h with h; subst h; exact htle
        · rw [if_neg ht] at h; injection h with h; subst h; omega

theorem dict_get_le_max {d : List (String × Nat)} {q : String × Nat}
    (h : max_entry d = some q) (k : String) : dict_get d k ≤ q.2 := by
  unfold dict_get
  cases hf : d.find? (fun r => r.1 = k) with
  | none => exact Nat.zero_le _
  | some r => exact max_entry_le h r (List.mem_of_find?_eq_some hf)

theorem insert_add_keys (d : List (String × Nat)) (k : String) (v : Nat) :
    (insert_add d k v).map Prod.fst =
      if k ∈ d.map Prod.fst then d.map Prod.fst else d.map Prod.fst ++ [k] := by
  induction d with
  | nil => simp [insert_add]
  | cons q rest ih =>
    by_cases hq : q.1 = k
    · simp [insert_add, hq]
    · have hkq : ¬ k = q.1 := fun h => hq h.symm
      simp only [insert_add, if_neg hq, List.map_cons, ih]
      by_cases hk : k ∈ rest.map Prod.fst
      · simp [hk, hkq]
      · simp [hk, hkq]

theorem insert_add_keys_nodup {d : List (String × Nat)}
    (h : (d.map Prod.fst).Nodup) (k : String) (v : Nat) :
    ((insert_add d k v).map Prod.fst).Nodup := by
  rw [insert_add_keys]
  by_cases hk : k ∈ d.map Prod.fst
  · simpa [hk] using h
  · simp only [if_neg hk]
    rw [List.nodup_append]
    refine ⟨h, List.nodup_singleton k, ?_⟩
    intro a ha hak
    rw [List.mem_singleton] at hak
    exact hk (hak ▸ ha)

theorem fold_counts_keys_nodup (pairs : List (String × Nat))
    {d : List (String × Nat)} (h : (d.map Prod.fst).Nodup) :
    ((fold_counts d pairs).map Prod.fst).Nodup := by
  induction pairs generalizing d with
  | nil => exact h
  | cons q rest ih => exact ih (insert_add_keys_nodup h q.1 q.2)

theorem dict_get_of_mem_nodup {d : List (String × Nat)}
    (hnd : (d.map Prod.fst).Nodup) {q : String × Nat} (hq : q ∈ d) :
    dict_get d q.1 = q.2 := by
  induction d with
  | nil => simp at hq
  | cons r rest ih =>
    rw [List.map_cons, List.nodup_cons] at hnd
    rcases List.mem_cons.mp hq with h1 | h1
    · subst h1; rw [dict_get_cons, if_pos rfl]
    · have hmem : q.1 ∈ rest.map Prod.fst := List.mem_map_of_mem Prod.fst h1
      rw [dict_get_cons, if_neg (fun he => hnd.1 (by rw [he]; exact hmem))]
      exact ih hnd.2 h1

theorem fold_counts_keys_mem (pairs : List (String × Nat))
    (d : List (String × Nat)) {k : String}
    (h : k ∈ (fold_counts d pairs).map Prod.fst) :
    k ∈ d.map Prod.fst ∨ k ∈ pairs.map Prod.fst := by
  induction pairs generalizing d with
  | nil => exact Or.inl h
  | cons q rest ih =>
    rcases ih (insert_add d q.1 q.2) h with h1 | h1
    · rw [insert_add_keys] at h1
      by_cases hk : q.1 ∈ d.map Prod.fst
      · rw [if_pos hk] at h1; exact Or.inl h1
      · rw [if_neg hk] at h1
        rcases List.mem_append.mp h1 with h2 | h2
        · exact Or.inl h2
        · simp at h2; subst h2; exact Or.inr (by simp)
    · exact Or.inr (by simp [h1])

theorem insert_add_ne_nil (d : List (String × Nat)) (k : String) (v : Nat) :
    insert_add d k v ≠ [] := by
  cases d with
  | nil => simp [insert_add]
  | cons q rest => by_cases h : q.1 = k <;> simp [insert_add, h]

theorem fold_counts_eq_nil {d pairs : List (String × Nat)} :
    fold_counts d pairs = [] ↔ d = [] ∧ pairs = [] := by
  induction pairs generalizing d with
  | nil => simp [fold_counts]
  | cons q rest ih =>
    show fold_counts (insert_add d q.1 q.2) rest = [] ↔ _
    rw [ih]
    simp [insert_add_ne_nil d q.1 q.2]

theorem key_sum_rollup_pairs (R : List EventRollupHourly) (n : String) :
    key_sum (R.map (fun r => (r.event_name, r.count))) n =
      ((R.filter (fun r => decide (r.event_name = n))).map (fun r => r.count)).sum := by
  induction R with
  | nil => rfl
  | cons r rest ih =>
    rw [List.map_cons, key_sum_cons, ih]
    by_cases h : r.event_name = n <;> simp [h]

theorem key_sum_raw_pairs (E : List Event) (n : String) :
    key_sum (E.map (fun e => (e.event_name, 1))) n =
      (E.filter (fun e => decide (e.event_name = n))).length := by
  induction E with
  | nil => rfl
  | cons e rest ih =>
    rw [List.map_cons, key_sum_cons, ih]
    by_cases h : e.event_name = n
    · simp [h]
      omega
    · simp [h]

theorem rollup_window_nil (rollups : List EventRollupHourly)
    (p start end_ H : Nat) (h : ¬ start < H) :
    rollup_window rollups p start end_ H = [] := by
  apply List.filter_eq_nil_iff.mpr
  intro r _
  simp only [decide_eq_true_eq, not_and]
  intro _ h1 h2
  have h3 : r.hour < H := lt_of_lt_of_le h2 (min_le_right end_ H)
  omega

theorem raw_window_nil (events : List Event) (p start end_ H : Nat)
    (h : ¬ H ≤ end_) :
    raw_window events p start end_ H = [] := by
  apply List.filter_eq_nil_iff.mpr
  intro e _
  simp only [decide_eq_true_eq, not_and]
  intro _ h1 h2
  have h3 : H ≤ max start H := le_max_right start H
  omega

theorem get_overview_eq (now : Nat) (rollups : List EventRollupHourly)
    (events : List Event) (p start end_ : Nat) :
    get_overview now rollups events p start end_ =
      { total_events :=
          ((rollup_window rollups p start end_ (hour_floor now)).map
            (fun r => r.count)).sum +
            (raw_window events p start end_ (hour_floor now)).length
        unique_sessions :=
          ((rollup_window rollups p start end_ (hour_floor now)).map
            (fun r => r.unique_sessions)).sum +
            count_distinct ((raw_window events p start end_ (hour_floor now)).filterMap
              (fun e => e.session_id))
        unique_users :=
          ((rollup_window rollups p start end_ (hour_floor now)).map
            (fun r => r.unique_users)).sum +
            count_distinct ((raw_window events p start end_ (hour_floor now)).filterMap
              (fun e => e.distinct_id))
        top_event :=
          (max_entry (fold_counts
            (fold_counts [] ((rollup_window rollups p start end_ (hour_floor now)).map
              (fun r => (r.event_name, r.count))))
            ((raw_window events p start end_ (hour_floor now)).map
              (fun e => (e.event_name, 1))))).map (fun q => q.1)
        period_start := start
        period_end := end_ } := by
  by_cases hs : start < hour_floor now <;> by_cases he : hour_floor now ≤ end_
  · simp only [get_overview, rollup_window, raw_window, hs, he, if_true]
  · rw [raw_window_nil events p start end_ (hour_floor now) he]
    simp only [get_overview, rollup_window, hs, he, if_true, if_false]
  · rw [rollup_window_nil rollups p start end_ (hour_floor now) hs]
    simp only [get_overview, raw_window, hs, he, if_true, if_false]
  · rw [rollup_window_nil rollups p start end_ (hour_floor now) hs,
      raw_window_nil events p start end_ (hour_floor now) he]
    simp only [get_overview, hs, he, if_false]

theorem window_count_eq_dict_get (R : List EventRollupHourly) (E : List Event)
    (n : String) :
    window_count R E n =
      dict_get (fold_counts (fold_counts [] (R.map (fun r => (r.event_name, r.count))))
        (E.map (fun e => (e.event_name, 1)))) n := by
  rw [window_count, fold_counts_get, fold_counts_get, dict_get_nil,
    key_sum_rollup_pairs, key_sum_raw_pairs]
  omega

/-- C1: for every project and window, `get_overview` returns each scalar as
the rollup aggregate over rows with `start <= hour < min(end, H)` plus the
raw aggregate over events with `max(start, H) <= timestamp <= end`, where
`H = hour_floor(now)`; `top_event` is an event name of the window whose
per-name count summed across the two sides is maximal, it is `none` exactly
when both sides contribute nothing, and then the result is all zeros. -/
theorem get_overview_hybrid_correct (now : Nat) (rollups : List EventRollupHourly)
    (events : List Event) (p start end_ : Nat) :
    (get_overview now rollups events p start end_).total_events =
        ((rollup_window rollups p start end_ (hour_floor now)).map
          (fun r => r.count)).sum +
          (raw_window events p start end_ (hour_floor now)).length
    ∧ (get_overview now rollups events p start end_).unique_sessions =
        ((rollup_window rollups p start end_ (hour_floor now)).map
          (fun r => r.unique_sessions)).sum +
          count_distinct ((raw_window events p start end_ (hour_floor now)).filterMap
            (fun e => e.session_id))
    ∧ (get_overview now rollups events p start end_).unique_users =
        ((rollup_window rollups p start end_ (hour_floor now)).map
          (fun r => r.unique_users)).sum +
          count_distinct ((raw_window events p start end_ (hour_floor now)).filterMap
            (fun e => e.distinct_id))
    ∧ ((get_overview now rollups events p start end_).top_event = none ↔
        rollup_window rollups p start end_ (hour_floor now) = [] ∧
          raw_window events p start end_ (hour_floor now) = [])
    ∧ (∀ n, (get_overview now rollups events p start end_).top_event = some n →
        (n ∈ (rollup_window rollups p start end_ (hour_floor now)).map
            (fun r => r.event_name) ∨
          n ∈ (raw_window events p start end_ (hour_floor now)).map
            (fun e => e.event_name)) ∧
        ∀ m, window_count (rollup_window rollups p start end_ (hour_floor now))
            (raw_window events p start end_ (hour_floor now)) m ≤
          window_count (rollup_window rollups p start end_ (hour_floor now))
            (raw_window events p start end_ (hour_floor now)) n)
    ∧ (rollup_window rollups p start end_ (hour_floor now) = [] →
        raw_window events p start end_ (hour_floor now) = [] →
        get_overview now rollups events p start end_ =
          ⟨0, 0, 0, none, start, end_⟩) := by
  rw [get_overview_eq]
  refine ⟨rfl, rfl, rfl, ?_, ?_, ?_⟩
  · show (max_entry _).map _ = none ↔ _
    rw [Option.map_eq_none', max_entry_eq_none, fold_counts_eq_nil,
      fold_counts_eq_nil]
    simp [List.map_eq_nil_iff]
  · intro n htop
    rcases Option.map_eq_some'.mp htop with ⟨q, hq, hq1⟩
    subst hq1
    constructor
    · have hmem := List.mem_map_of_mem Prod.fst (max_entry_mem hq)
      rcases fold_counts_keys_mem _ _ hmem with h1 | h1
      · rcases fold_counts_keys_mem _ _ h1 with h2 | h2
        · simp at h2
        · rw [List.map_map] at h2
          exact Or.inl h2
      · rw [List.map_map] at h1
        exact Or.inr h1
    · intro m
      rw [window_count_eq_dict_get, window_count_eq_dict_get]
      have hnd : ((fold_counts (fold_counts []
          ((rollup_window rollups p start end_ (hour_floor now)).map
            (fun r => (r.event_name, r.count))))
          ((raw_window events p start end_ (hour_floor now)).map
            (fun e => (e.event_name, 1)))).map Prod.fst).Nodup :=
        fold_counts_keys_nodup _ (fold_counts_keys_nodup _ (by simp))
      rw [dict_get_of_mem_nodup hnd (max_entry_mem hq)]
      exact dict_get_le_max hq m
  · intro h1 h2
    rw [h1, h2]
    rfl

theorem rollup_window_empty_table (p start end_ H : Nat) :
    rollup_window [] p start end_ H = [] := rfl

theorem raw_window_empty_table (p start end_ H : Nat) :
    raw_window [] p start end_ H = [] := rfl

theorem raw_window_at_boundary (events : List Event) (p start H : Nat) :
    raw_window events p start H H =
      raw_window (events.filter (fun e => decide (e.timestamp = H))) p start H H := by
  unfold raw_window
  rw [List.filter_filter]
  apply List.filter_congr
  intro e _
  by_cases h : e.project_id = p ∧ max start H ≤ e.timestamp ∧ e.timestamp ≤ H
  · have hts : e.timestamp = H :=
      le_antisymm h.2.2 (le_trans (le_max_right start H) h.2.1)
    simp [h, hts]
  · simp [h]
    intros
    omega

/-- C7 (amended): a window with `end < hour_floor(now)` is served entirely
from rollups (the raw table is irrelevant); when `end = hour_floor(now)` the
raw sub-window degenerates to the single instant `hour_floor(now)`, so raw
events with exactly that timestamp still contribute; a window with
`start = hour_floor(now)` is served entirely from raw events (the rollup
table is irrelevant). -/
theorem get_overview_boundary_split (now : Nat) (rollups : List EventRollupHourly)
    (events : List Event) (p start end_ : Nat) :
    (end_ < hour_floor now →
      get_overview now rollups events p start end_ =
        get_overview now rollups [] p start end_)
    ∧ (end_ = hour_floor now →
      get_overview now rollups events p start end_ =
        get_overview now rollups
          (events.filter (fun e => decide (e.timestamp = hour_floor now)))
          p start end_)
    ∧ (start = hour_floor now →
      get_overview now rollups events p start end_ =
        get_overview now [] events p start end_) := by
  refine ⟨?_, ?_, ?_⟩
  · intro h
    rw [get_overview_eq, get_overview_eq, raw_window_empty_table,
      raw_window_nil events p start end_ (hour_floor now) (by omega)]
  · intro h
    subst h
    rw [get_overview_eq, get_overview_eq, raw_window_at_boundary]
  · intro h
    subst h
    rw [get_overview_eq, get_overview_eq, rollup_window_empty_table,
      rollup_window_nil rollups p (hour_floor now) end_ (hour_floor now) (by omega)]

/-- C7 counterexample: with `now = end = 3600` (so `end = hour_floor(now)`)
and one raw event stamped exactly 3600, the overview differs from the
overview over an empty raw table, so the result is not computed entirely
from rollup rows. -/
theorem get_overview_end_boundary_cex :
    get_overview 3600 []
        [⟨1, "page_view", some "u1", none, some "s1", none, none, none, none, 3600⟩]
        1 0 3600 ≠
      get_overview 3600 [] [] 1 0 3600 := by
  decide

theorem hour_floor_eq_iff (t now : Nat) :
    hour_floor t = hour_floor now ↔
      hour_floor now ≤ t ∧ t < hour_floor now + 3600 := by
  unfold hour_floor
  omega

theorem foldl_rollup_upsert (keys : List (Nat × String))
    (rs : List EventRollupHourly) (hour_start : Nat) (recent : List Event)
    (hnd : keys.Nodup) :
    keys.foldl (fun acc k => rollup_upsert acc (rollup_row_for hour_start recent k)) rs =
      rs.filter (fun r => !decide (r.hour = hour_start ∧
          (r.project_id, r.event_name) ∈ keys)) ++
        keys.map (rollup_row_for hour_start recent) := by
  induction keys generalizing rs with
  | nil => simp
  | cons k ks ih =>
    rw [List.nodup_cons] at hnd
    rw [List.foldl_cons, ih _ hnd.2]
    show (rollup_upsert rs (rollup_row_for hour_start recent k)).filter _ ++ _ = _
    rw [rollup_upsert, List.filter_append, List.filter_filter]
    have hrow : (rollup_row_for hour_start recent k).project_id = k.1 := rfl
    have hrow2 : (rollup_row_for hour_start recent k).event_name = k.2 := rfl
    have hrow3 : (rollup_row_for hour_start recent k).hour = hour_start := rfl
    have hone : List.filter (fun r => !decide (r.hour = hour_start ∧
        (r.project_id, r.event_name) ∈ ks)) [rollup_row_for hour_start recent k] =
        [rollup_row_for hour_start recent k] := by
      rw [List.filter_cons]
      have : ((rollup_row_for hour_start recent k).project_id,
          (rollup_row_for hour_start recent k).event_name) = k := by
        rw [hrow, hrow2]
      simp [this, hnd.1]
    rw [hone]
    have hfc : List.filter (fun r =>
        !decide (r.hour = hour_start ∧ (r.project_id, r.event_name) ∈ ks) &&
          !decide (r.project_id = (rollup_row_for hour_start recent k).project_id ∧
            r.event_name = (rollup_row_for hour_start recent k).event_name ∧
            r.hour = (rollup_row_for hour_start recent k).hour)) rs =
        List.filter (fun r => !decide (r.hour = hour_start ∧
          (r.project_id, r.event_name) ∈ k :: ks)) rs := by
      apply List.filter_congr
      intro r _
      rw [hrow, hrow2, hrow3, Bool.eq_iff_iff]
      simp only [Bool.and_eq_true, Bool.not_eq_true', decide_eq_false_iff_not,
        decide_eq_true_eq, List.mem_cons, Prod.ext_iff]
      tauto
    rw [hfc, List.map_cons, List.append_assoc, List.singleton_append]

theorem compute_rollups_eq (now : Nat) (events : List Event)
    (rollups : List EventRollupHourly) :
    compute_rollups now events rollups =
      rollups.filter (fun r => !decide (r.hour = hour_floor now ∧
          (r.project_id, r.event_name) ∈ rollup_keys now events)) ++
        (rollup_keys now events).map
          (rollup_row_for (hour_floor now) (recent_events now events)) := by
  unfold compute_rollups recent_events rollup_keys
  exact foldl_rollup_upsert _ _ _ _ (List.nodup_dedup _)

theorem length_filter_split {α : Type} (l : List α) (p : α → Bool) :
    (l.filter p).length + (l.filter (fun a => !p a)).length = l.length := by
  induction l with
  | nil => rfl
  | cons a t ih =>
    by_cases h : p a = true <;>
      simp [List.filter_cons, h, Bool.not_eq_true] <;> omega

theorem sum_group_lengths (D : List (Nat × String)) (l : List Event)
    (hnd : D.Nodup)
    (hcov : ∀ e ∈ l, (e.project_id, e.event_name) ∈ D) :
    (D.map (fun k => (l.filter (fun e =>
        decide (e.project_id = k.1 ∧ e.event_name = k.2))).length)).sum =
      l.length := by
  induction D generalizing l with
  | nil =>
    cases l with
    | nil => rfl
    | cons e t => exact absurd (hcov e (by simp)) (by simp)
  | cons k D' ih =>
    rw [List.nodup_cons] at hnd
    rw [List.map_cons, List.sum_cons]
    have hcongr : ∀ k' ∈ D', l.filter (fun e =>
        decide (e.project_id = k'.1 ∧ e.event_name = k'.2)) =
        (l.filter (fun e => !decide (e.project_id = k.1 ∧ e.event_name = k.2))).filter
          (fun e => decide (e.project_id = k'.1 ∧ e.event_name = k'.2)) := by
      intro k' hk'
      rw [List.filter_filter]
      apply List.filter_congr
      intro e _
      by_cases hq : e.project_id = k'.1 ∧ e.event_name = k'.2
      · have hne : ¬(e.project_id = k.1 ∧ e.event_name = k.2) := by
          rintro ⟨h1, h2⟩
          have h3 : k = k' := Prod.ext (by rw [← h1, hq.1]) (by rw [← h2, hq.2])
          exact hnd.1 (h3 ▸ hk')
        rcases hq with ⟨a1, a2⟩
        rw [a1, a2] at hne
        simp [a1, a2]
        tauto
      · simp [hq]
    have hmap : D'.map (fun k' => (l.filter (fun e =>
        decide (e.project_id = k'.1 ∧ e.event_name = k'.2))).length) =
        D'.map (fun k' => ((l.filter (fun e =>
          !decide (e.project_id = k.1 ∧ e.event_name = k.2))).filter (fun e =>
            decide (e.project_id = k'.1 ∧ e.event_name = k'.2))).length) := by
      apply List.map_congr_left
      intro k' hk'
      rw [hcongr k' hk']
    rw [hmap, ih _ hnd.2]
    · exact length_filter_split l _
    · intro e he
      have he' := List.mem_of_mem_filter he
      have hp := List.of_mem_filter he
      rcases List.mem_cons.mp (hcov e he') with h1 | h1
      · exfalso
        have c1 : e.project_id = k.1 := congrArg Prod.fst h1
        have c2 : e.event_name = k.2 := congrArg Prod.snd h1
        simp [c1, c2] at hp
      · exact h1

theorem sum_counts_over_keys (H : Nat) (recent : List Event)
    (keys : List (Nat × String)) (p : Nat) :
    (((keys.map (rollup_row_for H recent)).filter (fun r =>
        decide (r.project_id = p ∧ r.hour = H))).map (fun r => r.count)).sum =
      ((keys.filter (fun k => decide (k.1 = p))).map (fun k =>
        (recent.filter (fun e =>
          decide (e.project_id = k.1 ∧ e.event_name = k.2))).length)).sum := by
  induction keys with
  | nil => rfl
  | cons k ks ih =>
    rw [List.map_cons, List.filter_cons, List.filter_cons]
    by_cases hk : k.1 = p
    · have h1 : (decide ((rollup_row_for H recent k).project_id = p ∧
          (rollup_row_for H recent k).hour = H)) = true := by
        show decide (k.1 = p ∧ H = H) = true
        simp [hk]
      have h2 : (decide (k.1 = p)) = true := by simp [hk]
      rw [h1, h2]
      simp only [if_true, List.map_cons, List.sum_cons, ih]
      rfl
    · have h1 : (decide ((rollup_row_for H recent k).project_id = p ∧
          (rollup_row_for H recent k).hour = H)) = false := by
        show decide (k.1 = p ∧ H = H) = false
        simp [hk]
      have h2 : (decide (k.1 = p)) = false := by simp [hk]
      rw [h1, h2]
      simpa using ih

/-- C3 (amended): a rollup pass recomputes exactly its own current hour.
After a pass at time `now`, provided every stored event's timestamp lies
before the next hour boundary and every pre-existing current-hour row of the
project names a `(project, event_name)` group present in the scan (rows
written by earlier passes of the same hour always do, since the store is
append-only), the sum over `event_name` of the `(P, hour_floor(now))` rollup
counts equals the number of raw events of `P` whose timestamp hour-floors to
`hour_floor(now)`. A pass whose run time lies in a later hour is a no-op on
the stored rows, so it never seals a closed hour: the claimed equality holds
for a closed hour only as left by the last pass that ran within that hour. -/
theorem rollup_hour_seal (now : Nat) (events : List Event)
    (rollups : List EventRollupHourly) (p : Nat)
    (hfut : ∀ e ∈ events, e.timestamp < hour_floor now + 3600)
    (hstale : ∀ r ∈ rollups, r.hour = hour_floor now → r.project_id = p →
      (r.project_id, r.event_name) ∈ rollup_keys now events) :
    rollup_hour_sum (compute_rollups now events rollups) p (hour_floor now) =
      raw_hour_count events p (hour_floor now)
    ∧ ∀ t', hour_floor now + 3600 ≤ hour_floor t' →
        compute_rollups t' events rollups = rollups := by
  constructor
  · rw [compute_rollups_eq]
    unfold rollup_hour_sum
    rw [List.filter_append, List.map_append, List.sum_append]
    have hstale_nil : (rollups.filter (fun r => !decide (r.hour = hour_floor now ∧
        (r.project_id, r.event_name) ∈ rollup_keys now events))).filter
          (fun r => decide (r.project_id = p ∧ r.hour = hour_floor now)) = [] := by
      rw [List.filter_filter]
      apply List.filter_eq_nil_iff.mpr
      intro r hr
      by_cases hq : r.project_id = p ∧ r.hour = hour_floor now
      · have hmem := hstale r hr hq.2 hq.1
        have hmem' : (p, r.event_name) ∈ rollup_keys now events := hq.1 ▸ hmem
        simp [hq.1, hq.2, hmem, hmem']
      · simp [hq]
    rw [hstale_nil, sum_counts_over_keys]
    have hsummand : ∀ k ∈ (rollup_keys now events).filter (fun k => decide (k.1 = p)),
        ((recent_events now events).filter (fun e =>
          decide (e.project_id = k.1 ∧ e.event_name = k.2))).length =
        (((recent_events now events).filter (fun e => decide (e.project_id = p))).filter
          (fun e => decide (e.project_id = k.1 ∧ e.event_name = k.2))).length := by
      intro k hkmem
      have hkp : k.1 = p := by
        have := List.of_mem_filter hkmem
        simpa using this
      apply congrArg List.length
      rw [List.filter_filter]
      apply List.filter_congr
      intro e _
      rw [Bool.eq_iff_iff]
      simp only [decide_eq_true_eq, Bool.and_eq_true]
      constructor
      · rintro ⟨h1, h2⟩
        exact ⟨⟨h1, h2⟩, by rw [h1, hkp]⟩
      · rintro ⟨⟨h1, h2⟩, _⟩
        exact ⟨h1, h2⟩
    have hndk : ((rollup_keys now events).filter (fun k => decide (k.1 = p))).Nodup :=
      List.Nodup.filter _ (by unfold rollup_keys; exact List.nodup_dedup _)
    have hcov : ∀ e ∈ (recent_events now events).filter (fun e =>
        decide (e.project_id = p)),
        (e.project_id, e.event_name) ∈
          (rollup_keys now events).filter (fun k => decide (k.1 = p)) := by
      intro e he
      have hep : e.project_id = p := by
        have := List.of_mem_filter he
        simpa using this
      have herec : e ∈ recent_events now events := List.mem_of_mem_filter he
      have hpair : (e.project_id, e.event_name) ∈ rollup_keys now events := by
        unfold rollup_keys
        exact List.mem_dedup.mpr
          (List.mem_map_of_mem (fun e => (e.project_id, e.event_name)) herec)
      exact List.mem_filter.mpr ⟨hpair, by simpa using hep⟩
    rw [List.map_congr_left hsummand, sum_group_lengths _ _ hndk hcov]
    show (List.map (fun r => r.count) ([] : List EventRollupHourly)).sum + _ = _
    rw [List.map_nil, List.sum_nil, Nat.zero_add]
    unfold raw_hour_count recent_events
    rw [List.filter_filter]
    apply congrArg List.length
    apply List.filter_congr
    intro e he
    rw [Bool.eq_iff_iff]
    simp only [decide_eq_true_eq, Bool.and_eq_true]
    constructor
    · rintro ⟨h1, h2⟩
      exact ⟨h1, (hour_floor_eq_iff e.timestamp now).mpr ⟨h2, hfut e he⟩⟩
    · rintro ⟨h1, h2⟩
      exact ⟨h1, ((hour_floor_eq_iff e.timestamp now).mp h2).1⟩
  · intro t' ht'
    have hrec : recent_events t' events = [] := by
      apply List.filter_eq_nil_iff.mpr
      intro e he
      have := hfut e he
      simp only [decide_eq_true_eq]
      omega
    have hkeys : rollup_keys t' events = [] := by
      unfold rollup_keys
      rw [hrec]
      rfl
    rw [compute_rollups_eq, hkeys]
    simp

theorem filter_key_map_rowfor_none (H : Nat) (recent : List Event)
    (keys : List (Nat × String)) (k : Nat × String) (hk : k ∉ keys) :
    (keys.map (rollup_row_for H recent)).filter (fun r =>
      decide (r.project_id = k.1 ∧ r.event_name = k.2 ∧ r.hour = H)) = [] := by
  induction keys with
  | nil => rfl
  | cons k0 ks ih =>
    rw [List.map_cons, List.filter_cons]
    have hne : ¬(k0 = k) := fun h => hk (h ▸ List.mem_cons_self k0 ks)
    have hfalse : (decide ((rollup_row_for H recent k0).project_id = k.1 ∧
        (rollup_row_for H recent k0).event_name = k.2 ∧
        (rollup_row_for H recent k0).hour = H)) = false := by
      show decide (k0.1 = k.1 ∧ k0.2 = k.2 ∧ H = H) = false
      simp only [decide_eq_false_iff_not]
      rintro ⟨h1, h2, -⟩
      exact hne (Prod.ext h1 h2)
    rw [hfalse]
    simp only [Bool.false_eq_true, if_false]
    exact ih (fun h => hk (List.mem_cons_of_mem _ h))

theorem filter_key_map_rowfor (H : Nat) (recent : List Event)
    (keys : List (Nat × String)) (hnd : keys.Nodup) (k : Nat × String)
    (hk : k ∈ keys) :
    (keys.map (rollup_row_for H recent)).filter (fun r =>
      decide (r.project_id = k.1 ∧ r.event_name = k.2 ∧ r.hour = H)) =
      [rollup_row_for H recent k] := by
  induction keys with
  | nil => simp at hk
  | cons k0 ks ih =>
    rw [List.nodup_cons] at hnd
    rw [List.map_cons, List.filter_cons]
    rcases List.mem_cons.mp hk with h1 | h1
    · subst h1
      have htrue : (decide ((rollup_row_for H recent k).project_id = k.1 ∧
          (rollup_row_for H recent k).event_name = k.2 ∧
          (rollup_row_for H recent k).hour = H)) = true := by
        show decide (k.1 = k.1 ∧ k.2 = k.2 ∧ H = H) = true
        simp
      rw [htrue]
      simp only [if_true]
      rw [filter_key_map_rowfor_none H recent ks k hnd.1]
    · have hne : ¬(k0 = k) := fun h => hnd.1 (h ▸ h1)
      have hfalse : (decide ((rollup_row_for H recent k0).project_id = k.1 ∧
          (rollup_row_for H recent k0).event_name = k.2 ∧
          (rollup_row_for H recent k0).hour = H)) = false := by
        show decide (k0.1 = k.1 ∧ k0.2 = k.2 ∧ H = H) = false
        simp only [decide_eq_false_iff_not]
        rintro ⟨h2, h3, -⟩
        exact hne (Prod.ext h2 h3)
      rw [hfalse]
      simp only [Bool.false_eq_true, if_false]
      exact ih hnd.2 h1

/-- C6 (amended): a rollup pass scans the raw events with
`timestamp >= hour_floor(now)` and, for each `(project_id, event_name)`
group among them, leaves exactly one rollup row keyed
`(project_id, event_name, hour_floor(now))` holding the group's event count
and its distinct non-null `session_id` / `distinct_id` counts (nulls are
excluded from the distinct counts by `COUNT(DISTINCT ...)` but included in
`count`); every row the pass writes carries `hour = hour_floor(now)`, which
equals the UTC hour-floor of each covered event whose timestamp lies within
the current hour — but a scanned event whose timestamp lies in a later hour
is folded into the current hour's row even though its own hour-floor
differs. -/
theorem compute_rollups_groups (now : Nat) (events : List Event)
    (rollups : List EventRollupHourly) :
    (∀ k ∈ rollup_keys now events,
      (compute_rollups now events rollups).filter (fun r =>
          decide (r.project_id = k.1 ∧ r.event_name = k.2 ∧
            r.hour = hour_floor now)) =
        [{ project_id := k.1
           event_name := k.2
           hour := hour_floor now
           count := ((recent_events now events).filter (fun e =>
             decide (e.project_id = k.1 ∧ e.event_name = k.2))).length
           unique_sessions := count_distinct (((recent_events now events).filter
             (fun e => decide (e.project_id = k.1 ∧ e.event_name = k.2))).filterMap
               (fun e => e.session_id))
           unique_users := count_distinct (((recent_events now events).filter
             (fun e => decide (e.project_id = k.1 ∧ e.event_name = k.2))).filterMap
               (fun e => e.distinct_id)) }])
    ∧ (∀ r ∈ compute_rollups now events rollups,
        r ∈ rollups ∨ r.hour = hour_floor now)
    ∧ (∀ e ∈ recent_events now events,
        e.timestamp < hour_floor now + 3600 →
          hour_floor e.timestamp = hour_floor now) := by
  refine ⟨?_, ?_, ?_⟩
  · intro k hk
    rw [compute_rollups_eq, List.filter_append]
    have hstale_nil : (rollups.filter (fun r =>
        !decide (r.hour = hour_floor now ∧
          (r.project_id, r.event_name) ∈ rollup_keys now events))).filter
        (fun r => decide (r.project_id = k.1 ∧ r.event_name = k.2 ∧
          r.hour = hour_floor now)) = [] := by
      rw [List.filter_filter]
      apply List.filter_eq_nil_iff.mpr
      intro r _
      by_cases hq : r.project_id = k.1 ∧ r.event_name = k.2 ∧
          r.hour = hour_floor now
      · have hpair : (r.project_id, r.event_name) ∈ rollup_keys now events := by
          have : (r.project_id, r.event_name) = k := Prod.ext hq.1 hq.2.1
          rw [this]
          exact hk
        simp [hq, hq.2.2, hpair]
        exact hk
      · simp [hq]
    rw [hstale_nil,
      filter_key_map_rowfor (hour_floor now) (recent_events now events)
        (rollup_keys now events) (by unfold rollup_keys; exact List.nodup_dedup _)
        k hk]
    rfl
  · intro r hr
    rw [compute_rollups_eq] at hr
    rcases List.mem_append.mp hr with h1 | h1
    · exact Or.inl (List.mem_of_mem_filter h1)
    · rcases List.mem_map.mp h1 with ⟨k, -, hk2⟩
      exact Or.inr (hk2 ▸ rfl)
  · intro e he hlt
    have hts : hour_floor now ≤ e.timestamp := by
      have := List.of_mem_filter he
      simpa using this
    exact (hour_floor_eq_iff e.timestamp now).mpr ⟨hts, hlt⟩

/-- C6 counterexample: at `now = 10` (current hour floor 0) the pass scans an
event stamped 7200 (a later hour), writes the row keyed hour 0 covering it,
and `hour_floor 7200 = 7200 ≠ 0`: a written rollup row's hour does not equal
the UTC hour-floor of an event it covers. -/
theorem compute_rollups_hour_mismatch_cex :
    ¬ (∀ r ∈ compute_rollups 10
          [⟨1, "page_view", none, none, none, none, none, none, none, 7200⟩] [],
        ∀ e ∈ recent_events 10
          [⟨1, "page_view", none, none, none, none, none, none, none, 7200⟩],
          e.project_id = r.project_id → e.event_name = r.event_name →
            hour_floor e.timestamp = r.hour) := by
  decide

/-- C3 witness for `rollup_hour_seal`: a pass at 3700 over two events of the
3600 hour and one stale current-hour row recomputes the hour exactly. -/
theorem rollup_hour_seal_witness :
    rollup_hour_sum (compute_rollups 3700
        [⟨1, "a", none, none, none, none, none, none, none, 3650⟩,
         ⟨1, "b", some "u", none, some "s", none, none, none, none, 3700⟩]
        [⟨1, "a", 3600, 99, 5, 5⟩]) 1 (hour_floor 3700) =
      raw_hour_count
        [⟨1, "a", none, none, none, none, none, none, none, 3650⟩,
         ⟨1, "b", some "u", none, some "s", none, none, none, none, 3700⟩]
        1 (hour_floor 3700)
    ∧ ∀ t', hour_floor 3700 + 3600 ≤ hour_floor t' →
        compute_rollups t'
          [⟨1, "a", none, none, none, none, none, none, none, 3650⟩,
           ⟨1, "b", some "u", none, some "s", none, none, none, none, 3700⟩]
          [⟨1, "a", 3600, 99, 5, 5⟩] = [⟨1, "a", 3600, 99, 5, 5⟩] :=
  rollup_hour_seal 3700
    [⟨1, "a", none, none, none, none, none, none, none, 3650⟩,
     ⟨1, "b", some "u", none, some "s", none, none, none, none, 3700⟩]
    [⟨1, "a", 3600, 99, 5, 5⟩] 1 (by decide) (by decide)

/-- C3 counterexample: rollup passes run at 3540 and 3599 (the worker's 60s
cadence inside hour 0), an event of hour 0 is drained at 3599 just after
that last in-hour pass, and a pass runs at 3601 — within `rollup_interval`
after the hour boundary 3600, as the claim's sealing condition demands, with
hour 0 strictly before the current hour. The post-boundary pass scans only
`timestamp >= hour_floor(3601) = 3600`, so the rollup sum for hour 0 stays 0
while the raw count is 1. -/
theorem rollup_seal_boundary_cex :
    (3601, WorkerAction.rollup) ∈
        ([(3540, WorkerAction.rollup), (3599, WorkerAction.rollup),
          (3599, WorkerAction.persist
            ⟨1, "page_view", none, none, none, none, none, none, none, 3599⟩),
          (3601, WorkerAction.rollup)] : List (Nat × WorkerAction))
    ∧ 0 + 3600 ≤ 3601 ∧ 3601 ≤ 0 + 3600 + 60
    ∧ hour_floor 0 + 3600 ≤ hour_floor 3601
    ∧ rollup_hour_sum (run_worker_history
        [(3540, WorkerAction.rollup), (3599, WorkerAction.rollup),
         (3599, WorkerAction.persist
           ⟨1, "page_view", none, none, none, none, none, none, none, 3599⟩),
         (3601, WorkerAction.rollup)]).2 1 0 ≠
      raw_hour_count (run_worker_history
        [(3540, WorkerAction.rollup), (3599, WorkerAction.rollup),
         (3599, WorkerAction.persist
           ⟨1, "page_view", none, none, none, none, none, none, none, 3599⟩),
         (3601, WorkerAction.rollup)]).1 1 0 := by
  decide

/-- C2: the source appends with `pipeline(transaction=False)`, which is not
all-or-nothing. On a 2-event batch with a transport failure after the server
processed the first XADD, the call still answers `accepted = 2`, event 1
stays in the stream, and the fallback writes the whole batch to the store:
a strict nonempty subset of the batch sits in the buffer while the batch
sits in the fallback store, from the same call — and event 1 is duplicated.
With `transaction := true` (MULTI/EXEC, what the function's docstring
assumes) the same failure would leave the stream empty. -/
theorem ingest_partial_pipeline_bug :
    ingest_events (α := Nat) (.failAfter 1) [] [] [1, 2] = (2, [1], [1, 2])
    ∧ ([1] : List Nat) ≠ [] ∧ ([1] : List Nat) ≠ [1, 2]
    ∧ push_event_batch_to_stream (α := Nat) true (.failAfter 1) [] [1, 2] =
        (none, []) := by
  decide

/-- C4: the websocket handshake authenticates the `token` query parameter as
a JWT access token and never consults the ticket store. A freshly issued,
unconsumed, unexpired ticket (an opaque uuid, so `jwt.decode` fails on it)
is rejected with close code 4001 even though `validate_ws_ticket` would have
authorized it and would have consumed it (yielding `none` on a second
consume); meanwhile the JWT access token the handshake does accept is
reusable, since the handshake consumes nothing. -/
theorem ws_handshake_ignores_tickets_bug :
    create_ws_ticket 7 "ticket-uuid-1" [] =
        ("ticket-uuid-1", [("ticket-uuid-1", 7)])
    ∧ validate_ws_ticket "ticket-uuid-1" [("ticket-uuid-1", 7)] = (some 7, [])
    ∧ (validate_ws_ticket "ticket-uuid-1" []).1 = none
    ∧ websocket_events
        (fun s => if s = "jwt-access-token" then
          some ⟨7, "access", "jti-a"⟩ else none)
        [⟨7, true⟩] [⟨5, 7, "proj", none, none, "h1", "proj_12345"⟩]
        ⟨[], [], [("jti-a", 7)], [(7, "jti-a")]⟩
        (some "ticket-uuid-1") 5 = .closed 4001 "Invalid token"
    ∧ websocket_events
        (fun s => if s = "jwt-access-token" then
          some ⟨7, "access", "jti-a"⟩ else none)
        [⟨7, true⟩] [⟨5, 7, "proj", none, none, "h1", "proj_12345"⟩]
        ⟨[], [], [("jti-a", 7)], [(7, "jti-a")]⟩
        (some "jwt-access-token") 5 = .accepted 7
    ∧ websocket_events
        (fun s => if s = "jwt-access-token" then
          some ⟨7, "access", "jti-a"⟩ else none)
        [⟨7, true⟩] [⟨5, 7, "proj", none, none, "h1", "proj_12345"⟩]
        ⟨[], [], [("jti-a", 7)], [(7, "jti-a")]⟩
        none 5 = .closed 4001 "Missing token" := by
  decide

/-- C9: a batch of 0 events fails validation (422), batches of exactly 1 and
exactly 100 valid events pass, a batch of 101 fails, and every event of a
valid batch carries a non-empty `event` name of at most 255 characters. -/
theorem event_ingest_validation (e : EventIn) (he : event_in_valid e = true) :
    event_ingest_request_valid [] = false
    ∧ event_ingest_request_valid [e] = true
    ∧ event_ingest_request_valid (List.replicate 100 e) = true
    ∧ event_ingest_request_valid (List.replicate 101 e) = false
    ∧ ∀ es : List EventIn, event_ingest_request_valid es = true →
        ∀ x ∈ es, 1 ≤ x.event.length ∧ x.event.length ≤ 255 := by
  refine ⟨rfl, ?_, ?_, ?_, ?_⟩
  · simp [event_ingest_request_valid, he]
  · simp only [event_ingest_request_valid, List.length_replicate,
      List.all_eq_true, Bool.and_eq_true]
    refine ⟨⟨by decide, by decide⟩, ?_⟩
    intro x hx
    rw [List.eq_of_mem_replicate hx]
    exact he
  · simp [event_ingest_request_valid]
  · intro es hv x hx
    unfold event_ingest_request_valid at hv
    simp only [Bool.and_eq_true, decide_eq_true_eq, List.all_eq_true] at hv
    have hx2 := hv.2 x hx
    unfold event_in_valid at hx2
    simp only [Bool.and_eq_true, decide_eq_true_eq] at hx2
    exact ⟨hx2.1.1.1, hx2.1.1.2⟩

/-- C9 witness: a 100-element batch of a concrete valid event passes. -/
theorem event_ingest_validation_witness :
    event_ingest_request_valid (List.replicate 100
      ⟨"page_view", none, none, none, none, none, none⟩) = true :=
  (event_ingest_validation ⟨"page_view", none, none, none, none, none, none⟩
    (by decide)).2.2.1

/-- C10: in `_parse_date_range` a missing `end` defaults to `now`; a missing
`start` defaults to `now` minus the selected period, measured from `now`
rather than from the supplied `end`; hence a request giving only an explicit
`end` earlier than `now - period` yields `start > end`, an empty window. -/
theorem parse_date_range_defaults (start? end? : Option Int) (period : Period)
    (now end_ : Int) (h : end_ < now - period_delta period) :
    (_parse_date_range start? none period now).2 = now
    ∧ (_parse_date_range none end? period now).1 = now - period_delta period
    ∧ (_parse_date_range none (some end_) period now).2 <
        (_parse_date_range none (some end_) period now).1 := by
  refine ⟨rfl, rfl, ?_⟩
  show end_ < now - period_delta period
  exact h

/-- C10 witness at `now = 1000000`, period 24h, explicit `end = 0`. -/
theorem parse_date_range_defaults_witness :
    (_parse_date_range none none Period.h24 1000000).2 = 1000000
    ∧ (_parse_date_range none none Period.h24 1000000).1 =
        1000000 - period_delta Period.h24
    ∧ (_parse_date_range none (some 0) Period.h24 1000000).2 <
        (_parse_date_range none (some 0) Period.h24 1000000).1 :=
  parse_date_range_defaults none none Period.h24 1000000 0 (by decide)

/-- C8: after `rotate_api_key` on project `pid`, looking up the old
plaintext key finds no project (so an ingest authenticated with it is
rejected as Unauthorized), looking up the new plaintext key finds the
project, the stored credential is exactly the digest and 10-character
prefix of the new key with the legacy plaintext column cleared, and no row
of the table stores the new plaintext key. The hypotheses state that the
old key authenticated `pid` before the rotation, that the digest does not
collide on the two keys, that digests are unique across rows (the DB's
unique index) with the fresh digest unused, that project ids are unique
(primary key), and that the fresh random key is not a stored legacy
plaintext. -/
theorem rotate_api_key_correct (hashKey : String → String) (db : List Project)
    (pid : Nat) (oldKey newKey : String) (pr : Project)
    (hmem : pr ∈ db) (hpid : pr.id = pid)
    (hold : pr.api_key_hash = hashKey oldKey)
    (hcol : hashKey oldKey ≠ hashKey newKey)
    (hub : ∀ q ∈ db, q.id ≠ pid →
      q.api_key_hash ≠ hashKey oldKey ∧ q.api_key_hash ≠ hashKey newKey)
    (hid : ∀ q ∈ db, q.id = pid → q = pr)
    (hfresh : ∀ q ∈ db, q.api_key ≠ some newKey) :
    get_by_api_key hashKey (rotate_in_db hashKey db pid newKey) oldKey = none
    ∧ get_by_api_key hashKey (rotate_in_db hashKey db pid newKey) newKey =
        some (rotate_api_key hashKey pr newKey)
    ∧ get_project_by_api_key hashKey (rotate_in_db hashKey db pid newKey)
        oldKey = .error "Invalid API key"
    ∧ (rotate_api_key hashKey pr newKey).api_key = none
    ∧ (rotate_api_key hashKey pr newKey).api_key_hash = hashKey newKey
    ∧ Project.api_key_prefix (rotate_api_key hashKey pr newKey) = newKey.take 10
    ∧ ∀ q ∈ rotate_in_db hashKey db pid newKey, q.api_key ≠ some newKey := by
  have hnone : get_by_api_key hashKey (rotate_in_db hashKey db pid newKey)
      oldKey = none := by
    apply List.find?_eq_none.mpr
    intro q hq
    rcases List.mem_map.mp hq with ⟨q0, hq0, hq0eq⟩
    by_cases hc : q0.id = pid
    · have : q0 = pr := hid q0 hq0 hc
      subst this
      rw [if_pos hc] at hq0eq
      subst hq0eq
      show ¬((rotate_api_key hashKey q0 newKey).api_key_hash == hashKey oldKey) = true
      simp only [rotate_api_key, beq_iff_eq]
      exact fun hh => hcol hh.symm
    · rw [if_neg hc] at hq0eq
      subst hq0eq
      simp only [beq_iff_eq]
      exact (hub q0 hq0 hc).1
  refine ⟨hnone, ?_, ?_, ?_, ?_, ?_, ?_⟩
  · clear hnone
    induction db with
    | nil => simp at hmem
    | cons q0 rest ih =>
      unfold rotate_in_db get_by_api_key
      rw [List.map_cons, List.find?_cons]
      by_cases hc : q0.id = pid
      · have hq0pr : q0 = pr := hid q0 (List.mem_cons_self q0 rest) hc
        subst hq0pr
        rw [if_pos hc]
        have : ((rotate_api_key hashKey q0 newKey).api_key_hash ==
            hashKey newKey) = true := by
          simp [rotate_api_key]
        rw [this]
      · rw [if_neg hc]
        have : (q0.api_key_hash == hashKey newKey) = false := by
          simp only [beq_eq_false_iff_ne, ne_eq]
          exact (hub q0 (List.mem_cons_self q0 rest) hc).2
        rw [this]
        have hmem' : pr ∈ rest := by
          rcases List.mem_cons.mp hmem with h1 | h1
          · exfalso
            exact hc (h1 ▸ hpid)
          · exact h1
        exact ih hmem'
          (fun q hq hqid => hub q (List.mem_cons_of_mem _ hq) hqid)
          (fun q hq hqid => hid q (List.mem_cons_of_mem _ hq) hqid)
          (fun q hq => hfresh q (List.mem_cons_of_mem _ hq))
  · unfold get_project_by_api_key
    rw [hnone]
  · rfl
  · simp [rotate_api_key]
  · simp [rotate_api_key]
  · intro q hq
    rcases List.mem_map.mp hq with ⟨q0, hq0, hq0eq⟩
    by_cases hc : q0.id = pid
    · rw [if_pos hc] at hq0eq
      subst hq0eq
      show (rotate_api_key hashKey q0 newKey).api_key ≠ some newKey
      simp [rotate_api_key]
    · rw [if_neg hc] at hq0eq
      subst hq0eq
      exact hfresh q0 hq0

/-- C8 witness: a one-row table with key digests modelled by suffixing `h`;
rotating to the fresh key `nk` invalidates the old key `ok` and stores only
the new digest and prefix. -/
theorem rotate_api_key_correct_witness :
    get_by_api_key (fun s => s ++ "h")
        (rotate_in_db (fun s => s ++ "h")
          [⟨1, 1, "s", none, some "ok", "okh", "ok"⟩] 1 "nk") "ok" = none
    ∧ get_by_api_key (fun s => s ++ "h")
        (rotate_in_db (fun s => s ++ "h")
          [⟨1, 1, "s", none, some "ok", "okh", "ok"⟩] 1 "nk") "nk" =
        some (rotate_api_key (fun s => s ++ "h")
          ⟨1, 1, "s", none, some "ok", "okh", "ok"⟩ "nk")
    ∧ get_project_by_api_key (fun s => s ++ "h")
        (rotate_in_db (fun s => s ++ "h")
          [⟨1, 1, "s", none, some "ok", "okh", "ok"⟩] 1 "nk") "ok" =
        .error "Invalid API key"
    ∧ (rotate_api_key (fun s => s ++ "h")
        ⟨1, 1, "s", none, some "ok", "okh", "ok"⟩ "nk").api_key = none
    ∧ (rotate_api_key (fun s => s ++ "h")
        ⟨1, 1, "s", none, some "ok", "okh", "ok"⟩ "nk").api_key_hash = "nk" ++ "h"
    ∧ Project.api_key_prefix (rotate_api_key (fun s => s ++ "h")
        ⟨1, 1, "s", none, some "ok", "okh", "ok"⟩ "nk") = "nk".take 10
    ∧ ∀ q ∈ rotate_in_db (fun s => s ++ "h")
        [⟨1, 1, "s", none, some "ok", "okh", "ok"⟩] 1 "nk",
        q.api_key ≠ some "nk" :=
  rotate_api_key_correct (fun s => s ++ "h")
    [⟨1, 1, "s", none, some "ok", "okh", "ok"⟩] 1 "ok" "nk"
    ⟨1, 1, "s", none, some "ok", "okh", "ok"⟩ (by decide) rfl rfl (by decide)
    (by decide) (by decide) (by decide)

theorem revoke_token_fields (j : String) (st : TokenStore) :
    (revoke_token j st).refresh_tokens =
        st.refresh_tokens.filter (fun q => !(q.1 == j))
    ∧ (revoke_token j st).access_tokens = st.access_tokens
    ∧ (revoke_token j st).user_access_tokens = st.user_access_tokens := by
  unfold revoke_token
  cases st.refresh_tokens.find? (fun q => q.1 == j) <;> simp

theorem any_key_filter_ne (l : List (String × Nat)) (j : String) :
    (l.filter (fun q => !(q.1 == j))).any (fun q => q.1 == j) = false := by
  rw [Bool.eq_false_iff]
  intro hany
  rcases List.any_eq_true.mp hany with ⟨q, hq, hqj⟩
  have := List.of_mem_filter hq
  rw [hqj] at this
  simp at this

theorem access_any_after_revoke_all (st : TokenStore) (u : Nat) (ja : String)
    (hidx : (u, ja) ∈ st.user_access_tokens) :
    ((revoke_all_user_access_tokens u st).access_tokens).any
      (fun q => q.1 == ja) = false := by
  unfold revoke_all_user_access_tokens
  rw [Bool.eq_false_iff]
  intro hany
  rcases List.any_eq_true.mp hany with ⟨q, hq, hqj⟩
  have hnotin := List.of_mem_filter hq
  have hin : ja ∈ (st.user_access_tokens.filter (fun r => r.1 == u)).map
      (fun r => r.2) :=
    List.mem_map.mpr ⟨(u, ja), List.mem_filter.mpr ⟨hidx, by simp⟩, rfl⟩
  rw [show q.1 = ja from by simpa using hqj] at hnotin
  simp only [Bool.not_eq_true', List.contains, List.elem_eq_mem,
    decide_eq_false_iff_not] at hnotin
  exact hnotin hin

/-- C5: presenting a valid refresh token `T` of an active user to the
refresh endpoint succeeds and, in the resulting store: the old `T` is
revoked (a second refresh with `T` fails as Unauthorized, whatever fresh
tokens it would mint), every access token previously issued to the user is
revoked (its jti key is gone, so a request carrying it is rejected), and the
newly returned access token is valid. The fresh jtis are assumed distinct
from the revoked ones, as uuid4 collisions are excluded. -/
theorem refresh_rotates_tokens (decode : String → Option TokenPayload)
    (users : List User) (st : TokenStore) (u : Nat) (T j oldA ja : String)
    (newA newR : String × String)
    (hdecT : decode T = some ⟨u, "refresh", j⟩)
    (hj : j ≠ "")
    (hvalid : is_token_revoked j st = false)
    (huser : users.find? (fun x => x.id == u) = some ⟨u, true⟩)
    (hfreshR : newR.2 ≠ j)
    (hdecA : decode oldA = some ⟨u, "access", ja⟩)
    (hja : ja ≠ "")
    (hidxA : (u, ja) ∈ st.user_access_tokens)
    (hjaneq : ja ≠ newA.2)
    (hdecNew : decode newA.1 = some ⟨u, "access", newA.2⟩)
    (hjnew : newA.2 ≠ "") :
    refresh_token_endpoint decode users (some T) newA newR st =
        .ok (⟨newA.1, newR.1⟩, store_refresh_token u newR.2
          (store_access_token u newA.2
            (revoke_all_user_access_tokens u (revoke_token j st))))
    ∧ (∀ newA2 newR2 : String × String,
        refresh_token_endpoint decode users (some T) newA2 newR2
          (store_refresh_token u newR.2 (store_access_token u newA.2
            (revoke_all_user_access_tokens u (revoke_token j st)))) =
          .error "Token has been revoked")
    ∧ is_access_token_revoked ja (store_refresh_token u newR.2
        (store_access_token u newA.2
          (revoke_all_user_access_tokens u (revoke_token j st)))) = true
    ∧ get_current_user decode users (store_refresh_token u newR.2
        (store_access_token u newA.2
          (revoke_all_user_access_tokens u (revoke_token j st)))) oldA =
        .error "Token has been revoked"
    ∧ is_access_token_revoked newA.2 (store_refresh_token u newR.2
        (store_access_token u newA.2
          (revoke_all_user_access_tokens u (revoke_token j st)))) = false
    ∧ get_current_user decode users (store_refresh_token u newR.2
        (store_access_token u newA.2
          (revoke_all_user_access_tokens u (revoke_token j st)))) newA.1 =
        .ok ⟨u, true⟩ := by
  have hrt := revoke_token_fields j st
  have hst4_refresh : (store_refresh_token u newR.2 (store_access_token u newA.2
      (revoke_all_user_access_tokens u (revoke_token j st)))).refresh_tokens =
      (newR.2, u) :: (revoke_token j st).refresh_tokens := rfl
  have hst4_access : (store_refresh_token u newR.2 (store_access_token u newA.2
      (revoke_all_user_access_tokens u (revoke_token j st)))).access_tokens =
      (newA.2, u) ::
        (revoke_all_user_access_tokens u (revoke_token j st)).access_tokens := rfl
  have h2core : is_token_revoked j (store_refresh_token u newR.2
      (store_access_token u newA.2
        (revoke_all_user_access_tokens u (revoke_token j st)))) = true := by
    unfold is_token_revoked
    rw [hst4_refresh, hrt.1]
    simp only [List.any_cons, any_key_filter_ne]
    simp [hfreshR]
  have h3core : is_access_token_revoked ja (store_refresh_token u newR.2
      (store_access_token u newA.2
        (revoke_all_user_access_tokens u (revoke_token j st)))) = true := by
    unfold is_access_token_revoked
    rw [hst4_access]
    simp only [List.any_cons]
    have htail := access_any_after_revoke_all (revoke_token j st) u ja
      (by rw [hrt.2.2]; exact hidxA)
    rw [htail]
    simp [Ne.symm hjaneq]
  have h5core : is_access_token_revoked newA.2 (store_refresh_token u newR.2
      (store_access_token u newA.2
        (revoke_all_user_access_tokens u (revoke_token j st)))) = false := by
    unfold is_access_token_revoked
    rw [hst4_access]
    simp
  refine ⟨?_, ?_, h3core, ?_, h5core, ?_⟩
  · simp [refresh_token_endpoint, hdecT, hvalid, huser, hj]
  · intro newA2 newR2
    simp [refresh_token_endpoint, hdecT, hj, h2core]
  · simp [get_current_user, hdecA, hja, h3core]
  · simp [get_current_user, hdecNew, hjnew, h5core, huser]

/-- C5 witness: user 1 holds refresh token `T` (jti `j1`) and access token
`A0` (jti `a0`); refreshing mints `A1`/`R1` (jtis `a1`/`r1`). -/
theorem refresh_rotates_tokens_witness :
    refresh_token_endpoint
        (fun s => if s = "T" then some ⟨1, "refresh", "j1"⟩
          else if s = "A0" then some ⟨1, "access", "a0"⟩
          else if s = "A1" then some ⟨1, "access", "a1"⟩ else none)
        [⟨1, true⟩] (some "T") ("A1", "a1") ("R1", "r1")
        ⟨[("j1", 1)], [(1, "j1")], [("a0", 1)], [(1, "a0")]⟩ =
      .ok (⟨"A1", "R1"⟩, store_refresh_token 1 "r1"
        (store_access_token 1 "a1"
          (revoke_all_user_access_tokens 1 (revoke_token "j1"
            ⟨[("j1", 1)], [(1, "j1")], [("a0", 1)], [(1, "a0")]⟩))))
    ∧ (∀ newA2 newR2 : String × String,
        refresh_token_endpoint
          (fun s => if s = "T" then some ⟨1, "refresh", "j1"⟩
            else if s = "A0" then some ⟨1, "access", "a0"⟩
            else if s = "A1" then some ⟨1, "access", "a1"⟩ else none)
          [⟨1, true⟩] (some "T") newA2 newR2
          (store_refresh_token 1 "r1" (store_access_token 1 "a1"
            (revoke_all_user_access_tokens 1 (revoke_token "j1"
              ⟨[("j1", 1)], [(1, "j1")], [("a0", 1)], [(1, "a0")]⟩)))) =
          .error "Token has been revoked")
    ∧ is_access_token_revoked "a0" (store_refresh_token 1 "r1"
        (store_access_token 1 "a1"
          (revoke_all_user_access_tokens 1 (revoke_token "j1"
            ⟨[("j1", 1)], [(1, "j1")], [("a0", 1)], [(1, "a0")]⟩)))) = true
    ∧ get_current_user
        (fun s => if s = "T" then some ⟨1, "refresh", "j1"⟩
          else if s = "A0" then some ⟨1, "access", "a0"⟩
          else if s = "A1" then some ⟨1, "access", "a1"⟩ else none)
        [⟨1, true⟩] (store_refresh_token 1 "r1"
          (store_access_token 1 "a1"
            (revoke_all_user_access_tokens 1 (revoke_token "j1"
              ⟨[("j1", 1)], [(1, "j1")], [("a0", 1)], [(1, "a0")]⟩)))) "A0" =
        .error "Token has been revoked"
    ∧ is_access_token_revoked "a1" (store_refresh_token 1 "r1"
        (store_access_token 1 "a1"
          (revoke_all_user_access_tokens 1 (revoke_token "j1"
            ⟨[("j1", 1)], [(1, "j1")], [("a0", 1)], [(1, "a0")]⟩)))) = false
    ∧ get_current_user
        (fun s => if s = "T" then some ⟨1, "refresh", "j1"⟩
          else if s = "A0" then some ⟨1, "access", "a0"⟩
          else if s = "A1" then some ⟨1, "access", "a1"⟩ else none)
        [⟨1, true⟩] (store_refresh_token 1 "r1"
          (store_access_token 1 "a1"
            (revoke_all_user_access_tokens 1 (revoke_token "j1"
              ⟨[("j1", 1)], [(1, "j1")], [("a0", 1)], [(1, "a0")]⟩)))) "A1" =
        .ok ⟨1, true⟩ :=
  refresh_rotates_tokens
    (fun s => if s = "T" then some ⟨1, "refresh", "j1"⟩
      else if s = "A0" then some ⟨1, "access", "a0"⟩
      else if s = "A1" then some ⟨1, "access", "a1"⟩ else none)
    [⟨1, true⟩] ⟨[("j1", 1)], [(1, "j1")], [("a0", 1)], [(1, "a0")]⟩
    1 "T" "j1" "A0" "a0" ("A1", "a1") ("R1", "r1")
    (by decide) (by decide) (by decide) (by decide) (by decide) (by decide)
    (by decide) (by decide) (by decide) (by decide) (by decide)
